import Mathlib

/-!
Shallow embedding of the core data-model and serialization layer of the
rust-cardano mock blockchain ledger (chain-impl-mockchain, wallet-crypto),
with formal statements of the specification's claims about it.

Bytes are modelled as `Nat` (values < 256 where produced by the code),
byte strings as `List Nat`.  Rust code that can panic is modelled in
`RResult`, whose `panic` constructor records the panic message; Rust code
that can return a recoverable decode error uses the `err` constructor
carrying a `ReadError`.  Machine-integer arithmetic is modelled on `Nat`
with explicit `% 2^w` where the Rust code wraps, and an explicit panic
where a Rust debug build would abort on overflow.
-/

/-- `ReadError`, the recoverable decode-error family of `chain_core::mempack`. -/
inductive ReadError where
  | notEnough (requested remaining : Nat)
  | structureInvalid (msg : String)
  | unknownTag (tag : Nat)
  | sizeTooBig
  | invalidSignature
  deriving Repr, DecidableEq

/-- Outcome of running a fallible Rust computation: a value, a recoverable
decode error, or a panic (abort) with its message. -/
inductive RResult (α : Type) where
  | ok (a : α)
  | err (e : ReadError)
  | panic (msg : String)
  deriving Repr, DecidableEq

/-- Big-endian byte representation of `n` on `w` bytes
(e.g. `u128::to_be_bytes` for `w = 16`). -/
def toBytesBE (w n : Nat) : List Nat :=
  (List.range w).map (fun i => n / 256 ^ (w - 1 - i) % 256)

/-! ## wallet-crypto hdpayload.rs -/

/-- `HDKEY_SIZE` from hdpayload.rs. -/
def HDKEY_SIZE : Nat := 32

/-- `TAG_LEN` from hdpayload.rs. -/
def TAG_LEN : Nat := 16

/-- `HDKey`, a 32-byte symmetric key (hdpayload.rs). -/
structure HDKey where
  bytes : List Nat
  deriving Repr, DecidableEq

/-- `HDKey::from_bytes` (hdpayload.rs): takes ownership of the bytes. -/
def HDKey.from_bytes (b : List Nat) : HDKey := ⟨b⟩

/-- `v[0..HDKEY_SIZE].clone_from_slice(bytes)` on `v = [0u8; HDKEY_SIZE]`:
the source slice overwrites the front of the destination. -/
def cloneFromSlice (dst src : List Nat) : List Nat :=
  src ++ dst.drop src.length

/-- `HDKey::from_slice` (hdpayload.rs): `Some` exactly when the slice is
`HDKEY_SIZE` bytes, copying them into a fresh 32-byte array. -/
def HDKey.from_slice (b : List Nat) : Option HDKey :=
  if b.length = HDKEY_SIZE then
    some (HDKey.from_bytes (cloneFromSlice (List.replicate HDKEY_SIZE 0) b))
  else
    none

/-- The ChaCha20-Poly1305 AEAD interface the code consumes (spec section 6:
the primitive itself is out of scope and used through this narrow
interface).  `enc key pt` returns the ciphertext (same length as the
plaintext) and a 16-byte tag; `dec key ct tag` authenticates and returns
the plaintext, or `none`.  Nonce and aad are fixed constants at every
call site in hdpayload.rs, so they are baked into the instance. -/
structure AEAD where
  enc : List Nat → List Nat → List Nat × List Nat
  dec : List Nat → List Nat → List Nat → Option (List Nat)
  enc_len : ∀ k pt, (enc k pt).1.length = pt.length
  tag_len : ∀ k pt, (enc k pt).2.length = 16
  dec_enc : ∀ k pt, dec k (enc k pt).1 (enc k pt).2 = some pt

/-- `HDKey::encrypt` (hdpayload.rs): AEAD-encrypt, output `ciphertext || tag`. -/
def HDKey.encrypt (A : AEAD) (key : HDKey) (input : List Nat) : List Nat :=
  let ct := (A.enc key.bytes input).1
  let tag := (A.enc key.bytes input).2
  ct ++ tag

/-- `HDKey.decrypt` (hdpayload.rs):
`let len = input.len() - TAG_LEN;` is unsigned subtraction, which a Rust
debug build aborts on when `input.len() < TAG_LEN` (and a release build
wraps to a huge `len`, after which `&input[..len]` panics out of bounds);
either way the function panics rather than returning.  When the
subtraction succeeds, `len <= 0` (i.e. `len = 0`) returns `None`,
otherwise the AEAD opens `input[..len]` against the tag `input[len..]`. -/
def HDKey.decrypt (A : AEAD) (key : HDKey) (input : List Nat) :
    RResult (Option (List Nat)) :=
  if input.length < TAG_LEN then
    .panic "attempt to subtract with overflow"
  else
    let len := input.length - TAG_LEN
    if len ≤ 0 then .ok none
    else
      match A.dec key.bytes (input.take len) (input.drop len) with
      | some out => .ok (some out)
      | none => .ok none

/-- A trivial but honest AEAD instance used to instantiate witnesses:
the ciphertext is the plaintext and the tag is 16 copies of the key head. -/
def idAEAD : AEAD where
  enc := fun k pt => (pt, List.replicate 16 (k.headI))
  dec := fun k ct tag => if tag = List.replicate 16 (k.headI) then some ct else none
  enc_len := fun _ _ => rfl
  tag_len := fun _ _ => by simp
  dec_enc := fun k pt => by simp

/-! ## chain-impl-mockchain setting.rs -/

/-- `ConsensusVersion` (block/version.rs, wire values 1 and 2). -/
inductive ConsensusVersion where
  | bft
  | genesisPraos
  deriving Repr, DecidableEq

/-- `ConsensusVersion::from_u16`: 1 is BFT, 2 is GenesisPraos. -/
def ConsensusVersion.from_u16 (n : Nat) : Option ConsensusVersion :=
  if n = 1 then some .bft
  else if n = 2 then some .genesisPraos
  else none

/-- `LinearFee` (fee.rs): three u64 fee coefficients. -/
structure LinearFee where
  constant : Nat
  coefficient : Nat
  certificate : Nat
  deriving Repr, DecidableEq

/-- A BFT leader id: a public key, modelled by its raw bytes. -/
abbrev LeaderId : Type := List Nat

/-- `UpdateProposal` (setting.rs): every field optional. -/
structure UpdateProposal where
  max_number_of_transactions_per_block : Option Nat
  bootstrap_key_slots_percentage : Option Nat
  consensus_version : Option ConsensusVersion
  bft_leaders : Option (List LeaderId)
  allow_account_creation : Option Bool
  linear_fees : Option LinearFee
  slot_duration : Option Nat
  epoch_stability_depth : Option Nat
  deriving Repr, DecidableEq

/-- `UpdateProposal::new` (setting.rs): all fields absent. -/
def UpdateProposal.new : UpdateProposal :=
  ⟨none, none, none, none, none, none, none, none⟩

/-- `Settings` (setting.rs). -/
structure Settings where
  max_number_of_transactions_per_block : Nat
  bootstrap_key_slots_percentage : Nat
  consensus_version : ConsensusVersion
  bft_leaders : List LeaderId
  allow_account_creation : Bool
  linear_fees : LinearFee
  slot_duration : Nat
  epoch_stability_depth : Nat

/-- `Settings::apply` (setting.rs): clone self, then overwrite each field
for which the proposal carries a value, in source order. -/
def Settings.apply (s : Settings) (u : UpdateProposal) : Settings :=
  let s := match u.max_number_of_transactions_per_block with
    | some v => { s with max_number_of_transactions_per_block := v }
    | none => s
  let s := match u.bootstrap_key_slots_percentage with
    | some v => { s with bootstrap_key_slots_percentage := v }
    | none => s
  let s := match u.consensus_version with
    | some v => { s with consensus_version := v }
    | none => s
  let s := match u.bft_leaders with
    | some v => { s with bft_leaders := v }
    | none => s
  let s := match u.allow_account_creation with
    | some v => { s with allow_account_creation := v }
    | none => s
  let s := match u.linear_fees with
    | some v => { s with linear_fees := v }
    | none => s
  let s := match u.slot_duration with
    | some v => { s with slot_duration := v }
    | none => s
  let s := match u.epoch_stability_depth with
    | some v => { s with epoch_stability_depth := v }
    | none => s
  s

/-! ## CBOR subset used by the HD payload

Modelled from the spec: the `raw_cbor` crate is part of this repository but
its sources are not under src/; spec section 4.3 defines the subset
(unsigned integers in shortest form, indefinite arrays terminated by the
0xFF break, rejection of unexpected major types). -/

/-- Modelled from the spec: shortest-form CBOR encoding of an unsigned
integer (major type 0); path indices are u32 so at most 4 payload bytes. -/
def cborEncUint (n : Nat) : List Nat :=
  if n < 24 then [n]
  else if n < 256 then [24, n]
  else if n < 65536 then 25 :: toBytesBE 2 n
  else 26 :: toBytesBE 4 n

/-- Modelled from the spec: decoding of one unsigned integer (major 0),
returning the value and the remaining bytes; any other leading byte is a
`StructureInvalid`, collapsed to `none` here. -/
def cborDecUint : List Nat → Option (Nat × List Nat)
  | [] => none
  | b :: rest =>
    if b < 24 then some (b, rest)
    else if b = 24 then
      match rest with
      | x :: r => some (x, r)
      | [] => none
    else if b = 25 then
      match rest with
      | x1 :: x0 :: r => some (x1 * 256 + x0, r)
      | _ => none
    else if b = 26 then
      match rest with
      | x3 :: x2 :: x1 :: x0 :: r =>
        some (((x3 * 256 + x2) * 256 + x1) * 256 + x0, r)
      | _ => none
    else none

/-- Modelled from the spec: element loop of an indefinite-length array of
unsigned integers, terminated by the 0xFF break.  `fuel` bounds the number
of iterations; each iteration consumes at least one byte, so fuel equal to
the buffer length always suffices. -/
def cborDecArrayAux : Nat → List Nat → Option (List Nat × List Nat)
  | 0, _ => none
  | _, [] => none
  | fuel + 1, b :: rest =>
    if b = 255 then some ([], rest)
    else
      match cborDecUint (b :: rest) with
      | none => none
      | some (n, r) =>
        match cborDecArrayAux fuel r with
        | none => none
        | some (ns, r2) => some (n :: ns, r2)

/-- `Path` (hdpayload.rs; named `HDPath` here since Lean already has `Path`):
a derivation path, a vector of u32 indices. -/
structure HDPath where
  indices : List Nat
  deriving Repr, DecidableEq

/-- `Path::cbor` (hdpayload.rs), CBOR layer modelled from the spec:
`serialize_indefinite_array` emits 0x9F, each index in shortest form,
then the 0xFF break. -/
def HDPath.cbor (p : HDPath) : List Nat :=
  159 :: (p.indices.map cborEncUint).flatten ++ [255]

/-- `Path::from_cbor` (hdpayload.rs), CBOR layer modelled from the spec:
expects an indefinite-length array of unsigned integers; anything else is
a decode error, collapsed to `none`. -/
def HDPath.from_cbor (bytes : List Nat) : Option HDPath :=
  match bytes with
  | 159 :: rest =>
    match cborDecArrayAux bytes.length rest with
    | some (ns, _) => some ⟨ns⟩
    | none => none
  | _ => none

/-- `HDKey::encrypt_path` (hdpayload.rs): AEAD-encrypt the CBOR encoding
of the path; the payload is the raw `ciphertext || tag` bytes. -/
def HDKey.encrypt_path (A : AEAD) (key : HDKey) (p : HDPath) : List Nat :=
  HDKey.encrypt A key p.cbor

/-- `HDKey::decrypt_path` (hdpayload.rs): decrypt the payload and CBOR-decode
the plaintext; a panic of `decrypt` propagates, any decode failure is `none`. -/
def HDKey.decrypt_path (A : AEAD) (key : HDKey) (payload : List Nat) :
    RResult (Option HDPath) :=
  match HDKey.decrypt A key payload with
  | .panic m => .panic m
  | .err e => .err e
  | .ok none => .ok none
  | .ok (some out) => .ok (HDPath.from_cbor out)

/-! ## chain-impl-mockchain transaction/witness.rs -/

/-- Sequence two fallible Rust computations, propagating errors and panics. -/
def RResult.bind {α β : Type} (x : RResult α) (f : α → RResult β) : RResult β :=
  match x with
  | .ok a => f a
  | .err e => .err e
  | .panic m => .panic m

/-- `chain_crypto::Verification`: verification outcomes are values, not errors. -/
inductive Verification where
  | success
  | failed
  deriving Repr, DecidableEq

/-- The asymmetric-scheme interface the witness code consumes (spec
section 6): keys, messages and signatures are byte strings. -/
structure SigScheme where
  toPublic : List Nat → List Nat
  sign : List Nat → List Nat → List Nat
  verify : List Nat → List Nat → List Nat → Bool

/-- `WITNESS_TAG_OLDUTXO` (witness.rs). -/
def WITNESS_TAG_OLDUTXO : Nat := 0
/-- `WITNESS_TAG_UTXO` (witness.rs). -/
def WITNESS_TAG_UTXO : Nat := 1
/-- `WITNESS_TAG_ACCOUNT` (witness.rs). -/
def WITNESS_TAG_ACCOUNT : Nat := 2

/-- `v[i] = x` on a Rust `Vec`: out-of-bounds indexing panics. -/
def vecIndexSet (v : List Nat) (i x : Nat) : RResult (List Nat) :=
  if i < v.length then .ok (v.set i x) else .panic "index out of bounds"

/-- `TransactionIdSpendingCounter::new` (witness.rs): the source allocates
`Vec::new()` and immediately assigns `v[0] = WITNESS_TAG_ACCOUNT` on the
empty vector, then would extend with the 32-byte transaction id and the
big-endian u32 spending counter (`SpendingCounter::to_bytes`, modelled
from the spec as big-endian u32 since account.rs is not under src/). -/
def TransactionIdSpendingCounter.new (transaction_id : List Nat)
    (spending_counter : Nat) : RResult (List Nat) :=
  RResult.bind (vecIndexSet [] 0 WITNESS_TAG_ACCOUNT) fun v =>
    .ok (v ++ transaction_id ++ toBytesBE 4 spending_counter)

/-- `Witness` (witness.rs): tagged union over the three signature shapes. -/
inductive Witness where
  | utxo (sig : List Nat)
  | account (sig : List Nat)
  | oldUtxo (xpub : List Nat) (sig : List Nat)
  deriving Repr, DecidableEq

/-- `Witness::new_utxo` (witness.rs): sign the transaction id with the
spending secret key. -/
def Witness.new_utxo (S : SigScheme) (transaction_id : List Nat)
    (secret_key : List Nat) : Witness :=
  Witness.utxo (S.sign secret_key transaction_id)

/-- `Witness::verify_utxo` (witness.rs): `OldUtxo` is `unimplemented!()`
(a panic), `Utxo` checks the signature over the transaction id, `Account`
is a definite `Failed`. -/
def Witness.verify_utxo (S : SigScheme) (w : Witness) (public_key : List Nat)
    (transaction_id : List Nat) : RResult Verification :=
  match w with
  | .oldUtxo _ _ => .panic "not implemented"
  | .utxo sig =>
    .ok (if S.verify public_key transaction_id sig then .success else .failed)
  | .account _ => .ok .failed

/-- An honest concrete signature scheme used to instantiate witnesses:
the signature is the message prefixed with the public key bytes. -/
def pairScheme : SigScheme where
  toPublic := fun sk => sk
  sign := fun sk msg => sk ++ msg
  verify := fun pk msg sig => decide (sig = pk ++ msg)

/-! ## chain-impl-mockchain stake/role.rs -/

/-- `GenesisPraosLeader` (leadership/genesis.rs): the two public keys,
modelled by their raw bytes. -/
structure GenesisPraosLeader where
  kes_public_key : List Nat
  vrf_public_key : List Nat
  deriving Repr, DecidableEq

/-- `StakePoolInfo` (stake/role.rs): owner keys are `StakeKeyId`s, i.e.
public keys, modelled by their raw bytes. -/
structure StakePoolInfo where
  serial : Nat
  owners : List (List Nat)
  initial_key : GenesisPraosLeader
  deriving Repr, DecidableEq

/-- `StakePoolInfo::to_id` (stake/role.rs): build a buffer from the
serial's big-endian u128 bytes, each owner key in list order, the KES key
and the VRF key, and hash it.  The Blake2b-256 primitive is out of scope
(spec section 6) and passed in as `hash_bytes`. -/
def StakePoolInfo.to_id (hash_bytes : List Nat → List Nat)
    (info : StakePoolInfo) : List Nat :=
  let v : List Nat := []
  let v := v ++ toBytesBE 16 info.serial
  let v := info.owners.foldl (fun acc o => acc ++ o) v
  let v := v ++ info.initial_key.kes_public_key
  let v := v ++ info.initial_key.vrf_public_key
  hash_bytes v

/-- `StakePoolInfo::serialize` (stake/role.rs): `assert!(owners.len() < 256)`
panics when the owner count does not fit the u8 length byte; otherwise
write the u128 serial, the owner count as u8, each owner key, then the
initial key (KES then VRF).  The sink is modelled as a pure byte list, so
underlying-sink I/O errors do not arise. -/
def StakePoolInfo.serialize (info : StakePoolInfo) : RResult (List Nat) :=
  if info.owners.length < 256 then
    .ok (toBytesBE 16 info.serial
      ++ [info.owners.length % 256]
      ++ info.owners.flatten
      ++ info.initial_key.kes_public_key
      ++ info.initial_key.vrf_public_key)
  else
    .panic "assertion failed: self.owners.len() < 256"

/-! ## ReadBuf primitives

Modelled from the spec: `chain_core::mempack::ReadBuf` is part of this
repository but not under src/; spec section 4.1 gives its contract
(big-endian reads that fail with `NotEnough` when short). -/

/-- Modelled from the spec: `ReadBuf::get_u8`. -/
def getU8 (buf : List Nat) : RResult (Nat × List Nat) :=
  match buf with
  | b :: rest => .ok (b, rest)
  | [] => .err (.notEnough 1 0)

/-- Modelled from the spec: `ReadBuf::get_u16`, big-endian. -/
def getU16 (buf : List Nat) : RResult (Nat × List Nat) :=
  match buf with
  | b1 :: b0 :: rest => .ok (b1 * 256 + b0, rest)
  | rest => .err (.notEnough 2 rest.length)

/-- Modelled from the spec: `ReadBuf::get_u32`, big-endian. -/
def getU32 (buf : List Nat) : RResult (Nat × List Nat) :=
  if 4 ≤ buf.length then
    .ok ((buf.take 4).foldl (fun acc b => acc * 256 + b) 0, buf.drop 4)
  else .err (.notEnough 4 buf.length)

/-- Modelled from the spec: `ReadBuf::get_u64`, big-endian. -/
def getU64 (buf : List Nat) : RResult (Nat × List Nat) :=
  if 8 ≤ buf.length then
    .ok ((buf.take 8).foldl (fun acc b => acc * 256 + b) 0, buf.drop 8)
  else .err (.notEnough 8 buf.length)

/-- Modelled from the spec: `ReadBuf::get_slice`, a borrowed n-byte window. -/
def getSlice (n : Nat) (buf : List Nat) : RResult (List Nat × List Nat) :=
  if n ≤ buf.length then .ok (buf.take n, buf.drop n)
  else .err (.notEnough n buf.length)

/-- Modelled from the spec: one BFT leader id on the wire is a public key
read as raw scheme-width bytes (32 for Ed25519, spec section 4.2);
leadership/bft.rs is not under src/. -/
def readLeaderId (buf : List Nat) : RResult (LeaderId × List Nat) :=
  getSlice 32 buf

/-- `read_vec(buf, len)` (chain_core::mempack, modelled from the spec):
read `len` leader ids in sequence. -/
def readLeaderVec : Nat → List Nat → RResult (List LeaderId × List Nat)
  | 0, buf => .ok ([], buf)
  | n + 1, buf =>
    RResult.bind (readLeaderId buf) fun (l, buf) =>
      RResult.bind (readLeaderVec n buf) fun (ls, buf) =>
        .ok (l :: ls, buf)

/-- `UpdateProposal::read` (setting.rs), tag-dispatch loop.  `fuel` bounds
the iterations; every iteration consumes at least the two tag bytes, so
fuel exceeding the buffer length never runs out (the fuel-exhausted branch
is unreachable from `UpdateProposal.read`).  The `None` arm of the
`UpdateTag::from_u16` match is the source's
`panic!("Unrecognized update tag {}.", tag)`. -/
def UpdateProposal.readAux : Nat → UpdateProposal → List Nat →
    RResult (UpdateProposal × List Nat)
  | 0, _, _ => .panic "loop fuel exhausted"
  | fuel + 1, update, buf =>
    RResult.bind (getU16 buf) fun (tag, buf) =>
      if tag = 0 then .ok (update, buf)
      else if tag = 1 then
        RResult.bind (getU32 buf) fun (v, buf) =>
          UpdateProposal.readAux fuel
            { update with max_number_of_transactions_per_block := some v } buf
      else if tag = 2 then
        RResult.bind (getU8 buf) fun (v, buf) =>
          UpdateProposal.readAux fuel
            { update with bootstrap_key_slots_percentage := some v } buf
      else if tag = 3 then
        RResult.bind (getU16 buf) fun (version_u16, buf) =>
          match ConsensusVersion.from_u16 version_u16 with
          | none =>
            .err (.structureInvalid
              ("Unrecognized consensus version " ++ Nat.repr version_u16))
          | some version =>
            UpdateProposal.readAux fuel
              { update with consensus_version := some version } buf
      else if tag = 4 then
        RResult.bind (getU8 buf) fun (len, buf) =>
          RResult.bind (readLeaderVec len buf) fun (leaders, buf) =>
            UpdateProposal.readAux fuel
              { update with bft_leaders := some leaders } buf
      else if tag = 5 then
        RResult.bind (getU8 buf) fun (b, buf) =>
          UpdateProposal.readAux fuel
            { update with allow_account_creation := some (b ≠ 0) } buf
      else if tag = 6 then
        RResult.bind (getU64 buf) fun (c0, buf) =>
          RResult.bind (getU64 buf) fun (c1, buf) =>
            RResult.bind (getU64 buf) fun (c2, buf) =>
              UpdateProposal.readAux fuel
                { update with linear_fees := some ⟨c0, c1, c2⟩ } buf
      else if tag = 7 then
        RResult.bind (getU8 buf) fun (v, buf) =>
          UpdateProposal.readAux fuel
            { update with slot_duration := some v } buf
      else if tag = 8 then
        RResult.bind (getU32 buf) fun (v, buf) =>
          UpdateProposal.readAux fuel
            { update with epoch_stability_depth := some v } buf
      else
        .panic ("Unrecognized update tag " ++ Nat.repr tag ++ ".")

/-- `UpdateProposal::read` (setting.rs): the loop starting from the empty
proposal, with enough fuel for the whole buffer. -/
def UpdateProposal.read (buf : List Nat) :
    RResult (UpdateProposal × List Nat) :=
  UpdateProposal.readAux (buf.length + 1) UpdateProposal.new buf

/-! ## chain-impl-mockchain block/mod.rs -/

/-- `MessageRaw::deserialize`, modelled from the spec (message/mod.rs is
not under src/): `MessageRaw` is `u16 len` plus `len` payload bytes;
a short read is a `NotEnough`-style I/O error.  Returns the payload and
the remaining input. -/
def MessageRaw.deserialize (input : List Nat) :
    RResult (List Nat × List Nat) :=
  RResult.bind (getU16 input) fun (len, rest) =>
    getSlice len rest

/-- `MessageRaw::size_bytes_plus_size` (spec section 6): payload length
plus the two length-prefix bytes. -/
def MessageRaw.size_bytes_plus_size (payload : List Nat) : Nat :=
  payload.length + 2

/-- The message loop of `Block::deserialize` (block/mod.rs lines 142-153),
parameterized over the opaque message parser `fromRaw`
(`Message::from_raw`; the `Message` codec is out of src/ scope).  While
`serialized_content_size > 0`: read one `MessageRaw`, parse it, push it,
then `serialized_content_size -= message_size as u32` — with NO overrun
check (the source carries only the comment «return error here if message
serialize sized is bigger than remaining size»).  The subtraction is u32
arithmetic: a release build wraps modulo 2^32 (a debug build would abort),
modelled here by the wrapping form.  `fuel` bounds iterations; each
iteration consumes at least two input bytes, so fuel exceeding the input
length never runs out. -/
def Block.readMessagesAux {Msg : Type} (fromRaw : List Nat → RResult Msg) :
    Nat → Nat → List Nat → RResult (List Msg)
  | 0, _, _ => .panic "loop fuel exhausted"
  | fuel + 1, serialized_content_size, input =>
    if serialized_content_size > 0 then
      RResult.bind (MessageRaw.deserialize input) fun (message_raw, input) =>
        let message_size := MessageRaw.size_bytes_plus_size message_raw
        RResult.bind (fromRaw message_raw) fun message =>
          RResult.bind
            (Block.readMessagesAux fromRaw fuel
              ((serialized_content_size + 2 ^ 32 - message_size % 2 ^ 32) % 2 ^ 32)
              input)
            fun messages => .ok (message :: messages)
    else
      .ok []

/-- The content-reading phase of `Block::deserialize` (block/mod.rs):
start the loop at the header's declared `block_content_size` with enough
fuel for the whole input. -/
def Block.readMessages {Msg : Type} (fromRaw : List Nat → RResult Msg)
    (block_content_size : Nat) (input : List Nat) : RResult (List Msg) :=
  Block.readMessagesAux fromRaw (input.length + 1) block_content_size input

/-- A message parser that accepts every raw payload, used to exhibit
behaviour of the loop itself independent of message contents. -/
def acceptAll : List Nat → RResult Unit := fun _ => .ok ()

/-! ## Helper lemmas -/

/-- Left-folding list append over a list of chunks appends their
concatenation to the accumulator. -/
theorem foldl_append_flatten (l : List (List Nat)) :
    ∀ acc : List Nat, l.foldl (fun a o => a ++ o) acc = acc ++ l.flatten := by
  induction l with
  | nil => intro acc; simp
  | cons x xs ih => intro acc; simp [ih, List.append_assoc]

/-- `toBytesBE 2` spelled out. -/
theorem toBytesBE_two (n : Nat) : toBytesBE 2 n = [n / 256 % 256, n % 256] := by
  simp [toBytesBE, List.range_succ]

/-- `toBytesBE 4` spelled out. -/
theorem toBytesBE_four (n : Nat) :
    toBytesBE 4 n = [n / 16777216 % 256, n / 65536 % 256, n / 256 % 256, n % 256] := by
  simp [toBytesBE, List.range_succ]

/-- Decoding inverts the shortest-form unsigned-integer encoding for any
u32 value, leaving trailing bytes untouched. -/
theorem cborDecUint_enc (n : Nat) (h : n < 2 ^ 32) (rest : List Nat) :
    cborDecUint (cborEncUint n ++ rest) = some (n, rest) := by
  by_cases h1 : n < 24
  · simp [cborEncUint, h1, cborDecUint]
  · by_cases h2 : n < 256
    · simp [cborEncUint, h1, h2, cborDecUint]
    · by_cases h3 : n < 65536
      · simp [cborEncUint, h1, h2, h3, toBytesBE_two, cborDecUint]
        omega
      · simp [cborEncUint, h1, h2, h3, toBytesBE_four, cborDecUint]
        omega

/-- The shortest-form encoding of an unsigned integer is a nonempty byte
string whose first byte is never the 0xFF break. -/
theorem cborEncUint_shape (n : Nat) :
    ∃ b tl, cborEncUint n = b :: tl ∧ b ≠ 255 := by
  by_cases h1 : n < 24
  · exact ⟨n, [], by simp [cborEncUint, h1], by omega⟩
  · by_cases h2 : n < 256
    · exact ⟨24, [n], by simp [cborEncUint, h1, h2], by omega⟩
    · by_cases h3 : n < 65536
      · exact ⟨25, toBytesBE 2 n, by simp [cborEncUint, h1, h2, h3], by omega⟩
      · exact ⟨26, toBytesBE 4 n, by simp [cborEncUint, h1, h2, h3], by omega⟩

/-- One successful step of the indefinite-array element loop. -/
theorem cborDecArrayAux_step (fuel b : Nat) (tl r : List Nat) (hb : b ≠ 255)
    (n : Nat) (hdec : cborDecUint (b :: tl) = some (n, r)) :
    cborDecArrayAux (fuel + 1) (b :: tl) =
      match cborDecArrayAux fuel r with
      | none => none
      | some (ns, r2) => some (n :: ns, r2) := by
  simp [cborDecArrayAux, hb, hdec]

/-- The element loop inverts the element-wise encoding of a u32 list when
given the encoded elements, the 0xFF break, and enough fuel. -/
theorem cborDecArrayAux_enc (ns : List Nat) :
    ∀ (fuel : Nat) (rest : List Nat), (∀ n ∈ ns, n < 2 ^ 32) →
      ns.length < fuel →
      cborDecArrayAux fuel ((ns.map cborEncUint).flatten ++ 255 :: rest)
        = some (ns, rest) := by
  induction ns with
  | nil =>
    intro fuel rest _ hf
    match fuel, hf with
    | fuel + 1, _ => simp [cborDecArrayAux]
  | cons n ns ih =>
    intro fuel rest hlt hf
    match fuel, hf with
    | fuel + 1, hf =>
      have hn : n < 2 ^ 32 := hlt n (by simp)
      obtain ⟨b, tl, hb, hbne⟩ := cborEncUint_shape n
      have hdec := cborDecUint_enc n hn ((ns.map cborEncUint).flatten ++ 255 :: rest)
      rw [hb] at hdec
      rw [List.cons_append] at hdec
      have hstep := cborDecArrayAux_step fuel b
        (tl ++ ((ns.map cborEncUint).flatten ++ 255 :: rest))
        ((ns.map cborEncUint).flatten ++ 255 :: rest) hbne n hdec
      have hih : cborDecArrayAux fuel ((ns.map cborEncUint).flatten ++ 255 :: rest)
          = some (ns, rest) :=
        ih fuel rest (fun m hm => hlt m (by simp [hm])) (by simpa using hf)
      simp only [List.map_cons, List.flatten_cons, List.append_assoc, hb,
        List.cons_append]
      rw [hstep, hih]

/-- Every shortest-form unsigned-integer encoding is nonempty. -/
theorem cborEncUint_length_pos (n : Nat) : 0 < (cborEncUint n).length := by
  obtain ⟨b, tl, hb, _⟩ := cborEncUint_shape n
  simp [hb]

/-- The concatenation of the element encodings is at least one byte per
element. -/
theorem length_le_flatten_map_enc (ns : List Nat) :
    ns.length ≤ ((ns.map cborEncUint).flatten).length := by
  induction ns with
  | nil => simp
  | cons n ns ih =>
    have := cborEncUint_length_pos n
    simp only [List.map_cons, List.flatten_cons, List.length_append,
      List.length_cons]
    omega

/-- CBOR-decoding the CBOR encoding of a derivation path recovers the
path, for paths of u32 indices. -/
theorem hdpath_from_cbor_cbor (p : HDPath) (h : ∀ n ∈ p.indices, n < 2 ^ 32) :
    HDPath.from_cbor p.cbor = some p := by
  obtain ⟨ns⟩ := p
  have hflat := length_le_flatten_map_enc ns
  have hcb : HDPath.cbor ⟨ns⟩
      = 159 :: ((ns.map cborEncUint).flatten ++ 255 :: ([] : List Nat)) := by
    simp [HDPath.cbor]
  rw [hcb]
  have hlen : ns.length
      < (159 :: ((ns.map cborEncUint).flatten ++ 255 :: ([] : List Nat))).length := by
    simp only [List.length_cons, List.length_append]
    omega
  simp only [HDPath.from_cbor]
  rw [cborDecArrayAux_enc ns _ [] (by simpa using h) hlen]

/-! ## Claim theorems -/

/-- C1: the spec requires the block-decode loop to fail with a fatal
`StructureInvalid` (overrun) whenever the next message's
`size_bytes_plus_size` exceeds the remaining declared content size.  The
source loop has no such check: on a header declaring `block_content_size
= 1` whose body is one empty message (`size_bytes_plus_size = 2 > 1`),
the message is accepted, the u32 subtraction wraps, and the loop keeps
reading until the input runs dry, surfacing a `NotEnough`-style I/O error
instead of `StructureInvalid`. -/
theorem block_decode_overrun_not_detected :
    Block.readMessages acceptAll 1 [0, 0] = .err (ReadError.notEnough 2 0) := by
  rfl

/-- C2: the spec requires `UpdateProposal::read` to surface an unknown
u16 tag as the recoverable decode error `UnknownTag`.  The source instead
panics: on the buffer `00 09` (tag 9, outside tags 0 through 8) the match
falls into `panic!("Unrecognized update tag {}.", tag)`. -/
theorem update_proposal_read_unknown_tag_panics :
    UpdateProposal.read [0, 9] = .panic "Unrecognized update tag 9." := by
  rfl

/-- C3: the claim says `TransactionIdSpendingCounter::new` produces the
37-byte preimage `0x02 || transaction_id || counter_be` without failing.
The source assigns `v[0] = WITNESS_TAG_ACCOUNT` on a freshly created
empty `Vec`, an out-of-bounds write that panics on every input; shown
here on the all-zero 32-byte transaction id with counter 1. -/
theorem transaction_id_spending_counter_new_panics :
    TransactionIdSpendingCounter.new (List.replicate 32 0) 1
      = .panic "index out of bounds" := by
  rfl

/-- C4: the claim says `HDKey::decrypt` returns `None` on every input
shorter than `TAG_LEN + 1` bytes and never panics.  The source computes
`input.len() - TAG_LEN` by unsigned subtraction before any guard, so
every input shorter than the 16-byte tag panics (debug: subtract with
overflow; release: the wrapped length makes `&input[..len]` go out of
bounds); shown on the empty input and on a 5-byte input. -/
theorem hdkey_decrypt_short_input_panics :
    HDKey.decrypt idAEAD (HDKey.from_bytes (List.replicate 32 0)) []
        = .panic "attempt to subtract with overflow"
      ∧ HDKey.decrypt idAEAD (HDKey.from_bytes (List.replicate 32 0)) [1, 2, 3, 4, 5]
        = .panic "attempt to subtract with overflow" :=
  ⟨rfl, rfl⟩

/-- C5: HD round-trip — decrypting, with the same key, the payload
produced by encrypting a derivation path yields `Some` of the original
path, for every AEAD satisfying the consumed-interface contract, every
key, and every path of u32 indices. -/
theorem hd_encrypt_decrypt_path_roundtrip (A : AEAD) (key : HDKey) (p : HDPath)
    (h : ∀ n ∈ p.indices, n < 2 ^ 32) :
    HDKey.decrypt_path A key (HDKey.encrypt_path A key p) = .ok (some p) := by
  have hctlen : (A.enc key.bytes p.cbor).1.length = p.cbor.length :=
    A.enc_len _ _
  have htglen : (A.enc key.bytes p.cbor).2.length = 16 := A.tag_len _ _
  have hcborlen : 0 < p.cbor.length := by simp [HDPath.cbor]
  have hlen : (HDKey.encrypt A key p.cbor).length = p.cbor.length + 16 := by
    simp [HDKey.encrypt, hctlen, htglen]
  have hdecrypt : HDKey.decrypt A key (HDKey.encrypt A key p.cbor)
      = .ok (some p.cbor) := by
    unfold HDKey.decrypt
    rw [if_neg (by rw [hlen]; unfold TAG_LEN; omega)]
    rw [if_neg (by rw [hlen]; unfold TAG_LEN; omega)]
    have htake : (HDKey.encrypt A key p.cbor).take
        ((HDKey.encrypt A key p.cbor).length - TAG_LEN)
        = (A.enc key.bytes p.cbor).1 := by
      rw [hlen]
      unfold TAG_LEN
      simp only [Nat.add_sub_cancel]
      unfold HDKey.encrypt
      rw [← hctlen, List.take_left]
    have hdrop : (HDKey.encrypt A key p.cbor).drop
        ((HDKey.encrypt A key p.cbor).length - TAG_LEN)
        = (A.enc key.bytes p.cbor).2 := by
      rw [hlen]
      unfold TAG_LEN
      simp only [Nat.add_sub_cancel]
      unfold HDKey.encrypt
      rw [← hctlen, List.drop_left]
    rw [htake, hdrop, A.dec_enc]
  unfold HDKey.decrypt_path HDKey.encrypt_path
  rw [hdecrypt]
  show RResult.ok (HDPath.from_cbor p.cbor) = RResult.ok (some p)
  rw [hdpath_from_cbor_cbor p h]

/-- Witness for C5 at the all-zero key and the path [0, 1, 2], with the
honest identity AEAD instance. -/
theorem hd_encrypt_decrypt_path_roundtrip_witness :
    HDKey.decrypt_path idAEAD (HDKey.from_bytes (List.replicate 32 0))
        (HDKey.encrypt_path idAEAD (HDKey.from_bytes (List.replicate 32 0))
          ⟨[0, 1, 2]⟩)
      = .ok (some ⟨[0, 1, 2]⟩) :=
  hd_encrypt_decrypt_path_roundtrip idAEAD
    (HDKey.from_bytes (List.replicate 32 0)) ⟨[0, 1, 2]⟩ (by decide)

set_option maxRecDepth 8192 in
/-- C6: `Settings::apply` overwrites exactly the fields present in the
proposal: every field of the result is the proposal's value when present
and the original setting's value when absent, stated via `Option.getD`
for all eight fields at once. -/
theorem settings_apply_frame (s : Settings) (u : UpdateProposal) :
    (s.apply u).max_number_of_transactions_per_block
        = u.max_number_of_transactions_per_block.getD
            s.max_number_of_transactions_per_block
      ∧ (s.apply u).bootstrap_key_slots_percentage
        = u.bootstrap_key_slots_percentage.getD s.bootstrap_key_slots_percentage
      ∧ (s.apply u).consensus_version
        = u.consensus_version.getD s.consensus_version
      ∧ (s.apply u).bft_leaders = u.bft_leaders.getD s.bft_leaders
      ∧ (s.apply u).allow_account_creation
        = u.allow_account_creation.getD s.allow_account_creation
      ∧ (s.apply u).linear_fees = u.linear_fees.getD s.linear_fees
      ∧ (s.apply u).slot_duration = u.slot_duration.getD s.slot_duration
      ∧ (s.apply u).epoch_stability_depth
        = u.epoch_stability_depth.getD s.epoch_stability_depth := by
  rcases u with ⟨m, bp, cv, bl, ac, lf, sd, ed⟩
  cases m <;> cases bp <;> cases cv <;> cases bl <;> cases ac <;> cases lf <;>
    cases sd <;> cases ed <;>
    exact ⟨rfl, rfl, rfl, rfl, rfl, rfl, rfl, rfl⟩

/-- C7: `StakePoolInfo::to_id` hashes exactly the concatenation of the
serial as big-endian u128 bytes, the owner keys in list order, the KES
public key and the VRF public key, for every hash function supplied for
the out-of-scope Blake2b-256 primitive — so the id depends only on those
field values. -/
theorem stake_pool_info_to_id_concat (hash_bytes : List Nat → List Nat)
    (info : StakePoolInfo) :
    StakePoolInfo.to_id hash_bytes info
      = hash_bytes (toBytesBE 16 info.serial
          ++ info.owners.flatten
          ++ info.initial_key.kes_public_key
          ++ info.initial_key.vrf_public_key) := by
  show hash_bytes
      (info.owners.foldl (fun acc o => acc ++ o) ([] ++ toBytesBE 16 info.serial)
        ++ info.initial_key.kes_public_key ++ info.initial_key.vrf_public_key)
    = _
  rw [foldl_append_flatten]
  simp [List.append_assoc]

/-- C8: a Utxo witness freshly built over a transaction id verifies as
`Success` against the signing key's public key and the same transaction
id, for every signature scheme satisfying sign/verify correctness. -/
theorem witness_new_utxo_verifies (S : SigScheme)
    (secret_key transaction_id : List Nat)
    (h : ∀ sk msg, S.verify (S.toPublic sk) msg (S.sign sk msg) = true) :
    Witness.verify_utxo S (Witness.new_utxo S transaction_id secret_key)
        (S.toPublic secret_key) transaction_id
      = .ok .success := by
  simp [Witness.verify_utxo, Witness.new_utxo, h]

/-- Witness for C8 with a concrete correct scheme, secret key [1] and
transaction id [2, 3]. -/
theorem witness_new_utxo_verifies_witness :
    Witness.verify_utxo pairScheme (Witness.new_utxo pairScheme [2, 3] [1])
        (pairScheme.toPublic [1]) [2, 3]
      = .ok .success :=
  witness_new_utxo_verifies pairScheme [1] [2, 3]
    (fun sk msg => by simp [pairScheme])

/-- C9 (counterexample): the claim that `StakePoolInfo::serialize` never
fails or panics with no restriction on the number of owners is false: a
pool with 256 owners trips `assert!(self.owners.len() < 256)`. -/
theorem stake_pool_info_serialize_panics_at_256_owners :
    StakePoolInfo.serialize ⟨1, List.replicate 256 [], ⟨[], []⟩⟩
      = .panic "assertion failed: self.owners.len() < 256" := by
  unfold StakePoolInfo.serialize
  rw [if_neg (by simp only [List.length_replicate]; omega)]

/-- C9 (amended): `StakePoolInfo::serialize` never fails and never panics
for every pool with fewer than 256 owners (the sink is a pure byte list,
so underlying-sink I/O errors do not arise). -/
theorem stake_pool_info_serialize_ok_of_lt_256 (info : StakePoolInfo)
    (h : info.owners.length < 256) :
    ∃ out, StakePoolInfo.serialize info = .ok out := by
  unfold StakePoolInfo.serialize
  rw [if_pos h]
  exact ⟨_, rfl⟩

/-- Witness for the amended C9 at a one-owner pool. -/
theorem stake_pool_info_serialize_ok_witness :
    ∃ out, StakePoolInfo.serialize ⟨1, [[7]], ⟨[8], [9]⟩⟩ = .ok out :=
  stake_pool_info_serialize_ok_of_lt_256 ⟨1, [[7]], ⟨[8], [9]⟩⟩ (by decide)

/-- C10: `HDKey::from_slice` returns `Some` of a key whose bytes equal
the input exactly when the slice is `HDKEY_SIZE` (32) bytes long, and
`None` for every other length. -/
theorem hdkey_from_slice_spec (b : List Nat) :
    (HDKey.from_slice b = some (HDKey.from_bytes b) ↔ b.length = HDKEY_SIZE)
      ∧ (b.length ≠ HDKEY_SIZE → HDKey.from_slice b = none) := by
  constructor
  · constructor
    · intro h
      by_contra hne
      simp [HDKey.from_slice, hne] at h
    · intro h
      unfold HDKey.from_slice
      rw [if_pos h]
      unfold cloneFromSlice
      rw [h]
      simp [HDKEY_SIZE]
  · intro h
    simp [HDKey.from_slice, h]

/-- Witness for C10 on a 32-byte slice and a 2-byte slice. -/
theorem hdkey_from_slice_spec_witness :
    HDKey.from_slice (List.replicate 32 5)
        = some (HDKey.from_bytes (List.replicate 32 5))
      ∧ HDKey.from_slice [1, 2] = none :=
  ⟨((hdkey_from_slice_spec (List.replicate 32 5)).1).mpr (by decide),
   (hdkey_from_slice_spec [1, 2]).2 (by decide)⟩
